import Mathlib

/-!
Shallow embedding of the adex-supermarket service (src/lib.rs, src/main.rs)
for verification of its specification.

The crate's `cache`, `market` and `config` modules are declared in lib.rs but
their sources are not part of the snapshot, so the `Cache`, `MarketApi` and
`Config` collaborators are modelled from the spec as abstract data/oracles;
all control flow of `handle`, `serve` and `spawn_fetch_campaigns` is embedded
directly from src/lib.rs.

Conventions: async calls collapse to pure function application; the network
oracles (`MarketApi.fetch_slot`, `MarketApi.fetch_units`, the hyper `Client`,
URI parsing) are explicit function parameters, so a theorem quantifying over
them covers every possible behaviour of the collaborator.
-/

/-- HTTP method, as matched in `handle` (`&Method::GET` vs the catch-all). -/
inductive Method where
  | GET
  | POST
  | PUT
  | DELETE
  | other (s : String)
deriving DecidableEq

/-- `http::uri::PathAndQuery`: the path plus optional query component. Its
`Display` prints `path?query`. -/
structure PathAndQuery where
  path : String
  query : Option String
deriving DecidableEq

/-- `Display` of a `PathAndQuery`, as used by `format!("{}{}", market_url, path_and_query)`. -/
def PathAndQuery.toStr (pq : PathAndQuery) : String :=
  pq.path ++ (match pq.query with
    | some q => "?" ++ q
    | none => "")

/-- `PathAndQuery::from_static("")`. -/
def PathAndQuery.emptyPQ : PathAndQuery := { path := "", query := none }

/-- `http::Uri`, reduced to the components `handle` reads: the optional
path-and-query (`None` for authority-form URIs). -/
structure Uri where
  path_and_query : Option PathAndQuery
deriving DecidableEq

/-- `Uri::path()`: the path of the URI, `""` when there is no path-and-query. -/
def Uri.path (u : Uri) : String :=
  match u.path_and_query with
  | some pq => pq.path
  | none => ""

/-- `Uri::query()`. -/
def Uri.query (u : Uri) : Option String :=
  match u.path_and_query with
  | some pq => pq.query
  | none => none

/-- `hyper::Request<Body>`, reduced to the components `handle` uses. The body
is opaque byte content, modelled as a string. -/
structure Request where
  method : Method
  uri : Uri
  body : String
deriving DecidableEq

/-- `hyper::Response<Body>`: status code and body. `Response::new(b)` has
status 200. -/
structure Response where
  status : Nat
  body : String
deriving DecidableEq

/-- `Response::new(body)` defaults the status to 200 OK. -/
def Response.mkNew (b : String) : Response := { status := 200, body := b }

/-- Opaque `hyper::Error` (transport failure of the proxy client). -/
structure HyperError where
  msg : String
deriving DecidableEq

/-- Opaque `reqwest::Error` (transport failure of the Market/validator client). -/
structure ReqwestError where
  msg : String
deriving DecidableEq

/-- Opaque `http::uri::InvalidUri` parse error. -/
structure InvalidUri where
  msg : String
deriving DecidableEq

/-- `http::Error`; `From<InvalidUri> for Error` goes through
`http::Error::from(e)`, so an invalid-URI error is one of its cases. -/
inductive HttpError where
  | invalidUri (e : InvalidUri)
  | otherHttp (s : String)
deriving DecidableEq

/-- The crate's `Error` enum (src/lib.rs lines 26-31). -/
inductive Error where
  | Hyper (e : HyperError)
  | Http (e : HttpError)
  | Reqwest (e : ReqwestError)
deriving DecidableEq

/-- `impl From(http::uri::InvalidUri) for Error` (src/lib.rs lines 63-67):
wraps the parse error as `Error::Http`. -/
def Error.ofInvalidUri (e : InvalidUri) : Error := Error.Http (HttpError.invalidUri e)

/-- Campaign lifecycle tag. Modelled from the spec: `CampaignStatus`
distinguishes newly discovered, active, and finalized campaigns (the `status`
module is not in the snapshot). -/
inductive CampaignStatus where
  | newlyDiscovered
  | active
  | finalized
deriving DecidableEq

/-- Modelled from the spec: a Campaign has a stable identifier and a status
(the `cache`/`status` modules are not in the snapshot). -/
structure Campaign where
  id : String
  status : CampaignStatus
deriving DecidableEq

/-- Modelled from the spec: the Cache aggregate is a mapping from campaign
identifier to Campaign (src/cache.rs is not in the snapshot). A `clone` of the
handle shares the same underlying store; for the claims below only the value
of the store matters. -/
structure Cache where
  campaigns : List (String × Campaign)
deriving DecidableEq

/-- An AdSlot as returned by the Market: its content identifier and targeting
tags (modelled from the spec; src/market.rs is not in the snapshot). -/
structure AdSlot where
  ipfs : String
  tags : List String
deriving DecidableEq

/-- An AdUnit; `au.ipfs` is the content identifier read by `handle`. -/
structure AdUnit where
  ipfs : String
deriving DecidableEq

/-- The Market client: base URL plus the two read operations, modelled as
oracles so that theorems quantify over every upstream behaviour
(src/market.rs is not in the snapshot; the operation signatures follow the
spec and the call sites in `handle`). -/
structure MarketApi where
  market_url : String
  fetch_slot : String → Except ReqwestError (Option AdSlot)
  fetch_units : AdSlot → Except ReqwestError (List AdUnit)

/-- The hyper `Client` used for proxying, as an oracle from the forwarded
request to the upstream outcome. -/
def Client : Type := Request → Except HyperError Response

/-- `static ROUTE_UNITS_FOR_SLOT` (src/lib.rs line 24). -/
def ROUTE_UNITS_FOR_SLOT : String := "/units-for-slot/"

/-- Rust `str::starts_with(pat)`: `pat` is a prefix of `s`. -/
def rustStartsWith (s pat : String) : Bool :=
  pat.data.isPrefixOf s.data

/-- Fuel-bounded core of `str::trim_start_matches`: repeatedly removes the
pattern from the front while it matches. The fuel (the length of `s`) is an
upper bound on the number of removals of a non-empty pattern. -/
def trimStartAux : Nat → List Char → List Char → List Char
  | 0, s, _ => s
  | Nat.succ fuel, s, pat =>
    if pat ≠ [] ∧ pat.isPrefixOf s then trimStartAux fuel (s.drop pat.length) pat
    else s

/-- Rust `str::trim_start_matches(pat)`: repeatedly removes every leading
occurrence of `pat` (for a non-empty pattern; an empty pattern removes
nothing). -/
def trimStartMatches (s pat : String) : String :=
  ⟨trimStartAux s.data.length s.data pat.data⟩

/-- Rust `str::contains(pat)`: `pat` occurs as a contiguous substring. -/
def containsSub (s pat : String) : Bool :=
  (List.range (s.data.length + 1)).any (fun i => pat.data.isPrefixOf (s.data.drop i))

/-- `not_found()` (src/lib.rs lines 261-266): 404 with empty body. -/
def not_found : Response := { status := 404, body := "" }

/-- `service_unavaiable()` (src/lib.rs lines 268-273, name as in the source):
503 with empty body. -/
def service_unavaiable : Response := { status := 503, body := "" }

/-- The `(true, &Method::GET)` arm of `handle` (src/lib.rs lines 120-166):
trim the route from the path to get the slot identifier, 404 on empty
identifier or unknown slot, otherwise fetch the units and answer 200 with an
empty placeholder body (targeting is an unimplemented TODO). -/
def units_for_slot_route (req : Request) (market : MarketApi) : Except Error Response :=
  let ipfs := trimStartMatches req.uri.path ROUTE_UNITS_FOR_SLOT
  if ipfs = "" then Except.ok not_found
  else
    match market.fetch_slot ipfs with
    | Except.error e => Except.error (Error.Reqwest e)
    | Except.ok Option.none => Except.ok not_found
    | Except.ok (Option.some ad_slot) =>
      match market.fetch_units ad_slot with
      | Except.error e => Except.error (Error.Reqwest e)
      | Except.ok units =>
        let _units_ipfses : List String := units.map (fun au => au.ipfs)
        let _apply_targeting : Bool :=
          match req.uri.query with
          | Option.some q => ! containsSub q "noTargeting"
          | Option.none => true
        Except.ok (Response.mkNew "")

/-- The `(_, method)` arm of `handle` (src/lib.rs lines 167-196): rewrite the
URI to the Market base URL plus the original path-and-query, forward with the
same method and body, relay a successful upstream response, answer 503 on
transport failure, and surface a URI parse failure as `Error::Http`. -/
def proxyToMarket (req : Request) (client : Client) (market : MarketApi)
    (parse : String → Except InvalidUri Uri) : Except Error Response :=
  let path_and_query := req.uri.path_and_query.getD PathAndQuery.emptyPQ
  let uri := market.market_url ++ path_and_query.toStr
  match parse uri with
  | Except.error e => Except.error (Error.ofInvalidUri e)
  | Except.ok u =>
    match client { req with uri := u } with
    | Except.ok response => Except.ok response
    | Except.error _err => Except.ok service_unavaiable

/-- `handle` (src/lib.rs lines 110-198). The cache parameter is named
`_cache` exactly as in the source; the URI parser (`str::parse::<Uri>`) is an
oracle parameter. -/
def handle (req : Request) ( _cache : Cache) (client : Client) (market : MarketApi)
    (parse : String → Except InvalidUri Uri) : Except Error Response :=
  match rustStartsWith req.uri.path ROUTE_UNITS_FOR_SLOT, req.method with
  | true, Method.GET => units_for_slot_route req market
  | _, _ => proxyToMarket req client market parse

/-- The two timeout durations the scheduler reads from `config.timeouts`
(field names as in the source). Durations are modelled as natural numbers of
time units. -/
structure Timeouts where
  cache_fetch_campaigns_from_market : Nat
  cache_update_campaign_statuses : Nat
deriving DecidableEq

/-- The scheduler's merged event type (src/lib.rs lines 220-223); the payload
is the `Instant` the interval fired at, modelled as a natural number. -/
inductive TimeFor where
  | New (t : Nat)
  | Update (t : Nat)
deriving DecidableEq

/-- The timeout budget the loop body picks for an event: the `New` arm reads
`cache_fetch_campaigns_from_market`, the `Update` arm
`cache_update_campaign_statuses`. -/
def timeoutFor (tms : Timeouts) : TimeFor → Nat
  | TimeFor.New _ => tms.cache_fetch_campaigns_from_market
  | TimeFor.Update _ => tms.cache_update_campaign_statuses

/-- Whether the event dispatches to `fetch_new_campaigns` (as opposed to
`fetch_campaign_updates`). -/
def isNewEvent : TimeFor → Bool
  | TimeFor.New _ => true
  | TimeFor.Update _ => false

/-- Severity of a structured log record. -/
inductive LogLevel where
  | info
  | error
deriving DecidableEq

/-- A structured log record emitted through the logging boundary. -/
structure LogEntry where
  level : LogLevel
  msg : String
deriving DecidableEq

/-- `tokio::time::timeout(budget, fut)` for a future that needs `dur` time
units: `Err(Elapsed)` exactly when the duration exceeds the budget. -/
def timeoutRun (budget dur : Nat) : Except Unit Unit :=
  if budget < dur then Except.error Unit.unit else Except.ok Unit.unit

/-- The log record produced by one iteration of the scheduler loop
(src/lib.rs lines 229-254): each arm pattern-matches the timeout result and
converts it into a log record — an error-level record when the attempt timed
out, an info-level record otherwise. The error never leaves the match. -/
def logForEvent (tms : Timeouts) (ev : TimeFor) (dur : Nat) : LogEntry :=
  match ev with
  | TimeFor.New _ =>
    match timeoutRun (timeoutFor tms ev) dur with
    | Except.error _elapsed => { level := LogLevel.error, msg := "Fetching new Campaigns timed out" }
    | _ => { level := LogLevel.info, msg := "New Campaigns fetched from Validators!" }
  | TimeFor.Update _ =>
    match timeoutRun (timeoutFor tms ev) dur with
    | Except.ok _ => { level := LogLevel.info, msg := "Campaigns statuses updated from Validators!" }
    | Except.error _elapsed => { level := LogLevel.error, msg := "Updating Campaigns statuses timed out" }

/-- One dispatched refresh call of the scheduler loop: which operation ran,
the time interval it occupied, and the log record its outcome was converted
into. -/
structure CallRecord where
  isNewCampaigns : Bool
  start : Nat
  stop : Nat
  log : LogEntry
deriving DecidableEq

/-- Trace semantics of the scheduler loop body (src/lib.rs lines 227-255).
The loop is a single task: it awaits the next merged event, runs the matching
cache operation under its timeout to completion (or abandonment at the
budget), and only then awaits the next event. `evs` pairs each delivered
event with the duration its refresh operation would need; the timeout caps
the time actually spent. The result is the chronological list of dispatched
calls. -/
def runScheduler (tms : Timeouts) : Nat → List (TimeFor × Nat) → List CallRecord
  | _, [] => []
  | now, (ev, dur) :: rest =>
    { isNewCampaigns := isNewEvent ev
      start := now
      stop := now + min dur (timeoutFor tms ev)
      log := logForEvent tms ev dur } ::
      runScheduler tms (now + min dur (timeoutFor tms ev)) rest

deriving instance DecidableEq for Except

/-- Outcome of `spawn_fetch_campaigns` (src/lib.rs lines 200-259):
`Cache::initialize` runs first and its failure is propagated with `?`; only
on success is the background task spawned and the cache returned. The result
of the initial load (code not in the snapshot) is the parameter. -/
structure SpawnOutcome where
  result : Except ReqwestError Cache
  taskSpawned : Bool
deriving DecidableEq

/-- `spawn_fetch_campaigns` (src/lib.rs lines 200-259), parametrised by the
outcome of `Cache::initialize`. -/
def spawn_fetch_campaigns (initResult : Except ReqwestError Cache) : SpawnOutcome :=
  match initResult with
  | Except.error e => { result := Except.error e, taskSpawned := false }
  | Except.ok cache => { result := Except.ok cache, taskSpawned := true }

/-- Outcome of `serve`: its returned value and whether `Server::bind` was
reached. -/
structure ServeOutcome where
  result : Except Error Unit
  listenerBound : Bool
deriving DecidableEq

/-- `serve` (src/lib.rs lines 69-108), parametrised by the outcomes of its
two fallible collaborator calls: `MarketApi::new` (whose error converts into
`Error` via `?`; src/market.rs is not in the snapshot) and the
`Cache::initialize` load inside `spawn_fetch_campaigns`. On either failure
the error propagates through `?` before `Server::bind` on line 100 runs; a
later `server.await` error is only logged and `serve` returns `Ok(())`. -/
def serve (marketNew : Except Error MarketApi) (initResult : Except ReqwestError Cache) :
    ServeOutcome :=
  match marketNew with
  | Except.error e => { result := Except.error e, listenerBound := false }
  | Except.ok _market =>
    match (spawn_fetch_campaigns initResult).result with
    | Except.error e => { result := Except.error (Error.Reqwest e), listenerBound := false }
    | Except.ok _cache => { result := Except.ok Unit.unit, listenerBound := true }

/-! Concrete fixtures used by counterexamples and witnesses. -/

/-- A concrete ad-slot the fixture Market knows under identifier `"abc"`. -/
def slot0 : AdSlot := { ipfs := "abc", tags := ["sports"] }

/-- A concrete ad-unit the fixture Market returns for `slot0`. -/
def unit0 : AdUnit := { ipfs := "unit-one" }

/-- Fixture Market: resolves `"abc"` to `slot0` with one unit, answers
`None` for every other identifier. -/
def market0 : MarketApi :=
  { market_url := "http://market.example"
    fetch_slot := fun idf => if idf = "abc" then Except.ok (Option.some slot0) else Except.ok Option.none
    fetch_units := fun _ => Except.ok [unit0] }

/-- Fixture upstream client that always answers 200 with body "upstream". -/
def client0 : Client := fun _ => Except.ok { status := 200, body := "upstream" }

/-- Fixture upstream client that always fails at the transport level. -/
def clientDown : Client := fun _ => Except.error { msg := "connection refused" }

/-- Fixture URI parser that accepts every string as a path-only URI. -/
def parse0 : String → Except InvalidUri Uri :=
  fun s => Except.ok { path_and_query := Option.some { path := s, query := Option.none } }

/-- Fixture URI parser that rejects every string. -/
def parseFail : String → Except InvalidUri Uri :=
  fun _ => Except.error { msg := "invalid uri" }

/-- The empty cache (no campaigns). -/
def cacheEmpty : Cache := { campaigns := [] }

/-- A cache holding one active campaign. -/
def cacheOne : Cache :=
  { campaigns := [("c1", { id := "c1", status := CampaignStatus.active })] }

/-- Fixture GET request for `/units-for-slot/abc`. -/
def reqAbc : Request :=
  { method := Method.GET
    uri := { path_and_query := Option.some { path := "/units-for-slot/abc", query := Option.none } }
    body := "" }

/-- Fixture POST request for `/foo?x=1`, which is proxied. -/
def reqPost : Request :=
  { method := Method.POST
    uri := { path_and_query := Option.some { path := "/foo", query := Option.some "x=1" } }
    body := "payload" }

/-- Fixture timeouts: 5 units for the new-campaigns fetch, 7 for the update. -/
def tms0 : Timeouts :=
  { cache_fetch_campaigns_from_market := 5, cache_update_campaign_statuses := 7 }

/-- Fixture event sequence: a New fetch taking 3 units, an Update taking 10
(which exceeds its budget of 7 and times out), a New fetch taking 9 (which
exceeds its budget of 5 and times out). -/
def evs0 : List (TimeFor × Nat) :=
  [(TimeFor.New 0, 3), (TimeFor.Update 0, 10), (TimeFor.New 1, 9)]

/-- Fixture GET request for `/units-for-slot/` (empty slot identifier). -/
def reqEmptyId : Request :=
  { method := Method.GET
    uri := { path_and_query := Option.some { path := "/units-for-slot/", query := Option.none } }
    body := "" }

/-- A concrete `reqwest` error standing for a failed initial campaign load. -/
def reqErr0 : ReqwestError := { msg := "market down" }

/-! Helper lemmas about which arm of `handle` runs. -/

theorem handle_eq_route (req : Request) (cache : Cache) (client : Client) (market : MarketApi)
    (parse : String → Except InvalidUri Uri)
    (h1 : rustStartsWith req.uri.path ROUTE_UNITS_FOR_SLOT = true)
    (h2 : req.method = Method.GET) :
    handle req cache client market parse = units_for_slot_route req market := by
  unfold handle
  rw [h1, h2]

theorem handle_eq_proxy (req : Request) (cache : Cache) (client : Client) (market : MarketApi)
    (parse : String → Except InvalidUri Uri)
    (h : ¬ (rustStartsWith req.uri.path ROUTE_UNITS_FOR_SLOT = true ∧ req.method = Method.GET)) :
    handle req cache client market parse = proxyToMarket req client market parse := by
  unfold handle
  cases hb : rustStartsWith req.uri.path ROUTE_UNITS_FOR_SLOT with
  | false => cases req.method <;> rfl
  | true =>
    cases hm : req.method with
    | GET => exact absurd ⟨hb, hm⟩ h
    | POST => rfl
    | PUT => rfl
    | DELETE => rfl
    | other s => rfl

/-- C5: for every GET request whose path starts with "/units-for-slot/", if
the remaining identifier is empty, or the Market's `fetch_slot` returns
`None` for that identifier, `handle` returns a response with status 404 Not
Found and an empty body. -/
theorem handle_units_for_slot_not_found (req : Request) (cache : Cache) (client : Client)
    (market : MarketApi) (parse : String → Except InvalidUri Uri)
    (hroute : rustStartsWith req.uri.path ROUTE_UNITS_FOR_SLOT = true)
    (hget : req.method = Method.GET)
    (hid : trimStartMatches req.uri.path ROUTE_UNITS_FOR_SLOT = "" ∨
      market.fetch_slot (trimStartMatches req.uri.path ROUTE_UNITS_FOR_SLOT) =
        Except.ok Option.none) :
    handle req cache client market parse = Except.ok { status := 404, body := "" } := by
  rw [handle_eq_route req cache client market parse hroute hget]
  rcases hid with he | hn
  · simp [units_for_slot_route, he, not_found]
  · by_cases he : trimStartMatches req.uri.path ROUTE_UNITS_FOR_SLOT = ""
    · simp [units_for_slot_route, he, not_found]
    · simp [units_for_slot_route, he, hn, not_found]

/-- Witness for C5: `GET /units-for-slot/` (empty identifier) answers 404
with an empty body. -/
theorem handle_units_for_slot_not_found_witness :
    handle reqEmptyId cacheEmpty client0 market0 parse0 =
      Except.ok { status := 404, body := "" } :=
  handle_units_for_slot_not_found reqEmptyId cacheEmpty client0 market0 parse0
    (by rfl) (by rfl) (Or.inl (by rfl))

/-- C6: for every GET units-for-slot request with a non-empty identifier for
which the Market returns a slot and the units fetch succeeds, `handle`
returns status 200 with an empty body, regardless of the fetched units and of
whether the query string contains the `noTargeting` flag. -/
theorem handle_units_for_slot_success_200_empty (req : Request) (cache : Cache) (client : Client)
    (market : MarketApi) (parse : String → Except InvalidUri Uri) (slot : AdSlot)
    (units : List AdUnit)
    (hroute : rustStartsWith req.uri.path ROUTE_UNITS_FOR_SLOT = true)
    (hget : req.method = Method.GET)
    (hne : trimStartMatches req.uri.path ROUTE_UNITS_FOR_SLOT ≠ "")
    (hslot : market.fetch_slot (trimStartMatches req.uri.path ROUTE_UNITS_FOR_SLOT) =
      Except.ok (Option.some slot))
    (hunits : market.fetch_units slot = Except.ok units) :
    handle req cache client market parse = Except.ok { status := 200, body := "" } := by
  rw [handle_eq_route req cache client market parse hroute hget]
  simp [units_for_slot_route, hne, hslot, hunits, Response.mkNew]

/-- Witness for C6: `GET /units-for-slot/abc` with a Market that knows the
slot answers 200 with an empty body. -/
theorem handle_units_for_slot_success_200_empty_witness :
    handle reqAbc cacheOne client0 market0 parse0 =
      Except.ok { status := 200, body := "" } :=
  handle_units_for_slot_success_200_empty reqAbc cacheOne client0 market0 parse0 slot0 [unit0]
    (by rfl) (by rfl) (by decide) (by rfl) (by rfl)

/-- C7: for every request not matching both the units-for-slot route and the
GET method, `handle` rewrites the request URI to the Market base URL
concatenated with the original path-and-query, leaves the method and body
unchanged (the forwarded request is the original with only the URI
replaced), forwards it, and on a successful upstream response returns that
response unmodified. -/
theorem handle_proxies_other_requests (req : Request) (cache : Cache) (client : Client)
    (market : MarketApi) (parse : String → Except InvalidUri Uri) (u : Uri) (resp : Response)
    (hnot : ¬ (rustStartsWith req.uri.path ROUTE_UNITS_FOR_SLOT = true ∧
      req.method = Method.GET))
    (hparse : parse (market.market_url ++
      (req.uri.path_and_query.getD PathAndQuery.emptyPQ).toStr) = Except.ok u)
    (hclient : client { req with uri := u } = Except.ok resp) :
    handle req cache client market parse = Except.ok resp := by
  rw [handle_eq_proxy req cache client market parse hnot]
  simp [proxyToMarket, hparse, hclient]

/-- Witness for C7: a POST to `/foo?x=1` is forwarded to
`http://market.example/foo?x=1` with method and body unchanged, and the
upstream 200 response is relayed verbatim. -/
theorem handle_proxies_other_requests_witness :
    handle reqPost cacheEmpty client0 market0 parse0 =
      Except.ok { status := 200, body := "upstream" } :=
  handle_proxies_other_requests reqPost cacheEmpty client0 market0 parse0
    { path_and_query := Option.some { path := "http://market.example/foo?x=1", query := Option.none } }
    { status := 200, body := "upstream" }
    (by intro h; exact absurd h.1 (by decide)) (by rfl) (by rfl)

/-- C8: for every proxied request, if the forwarded request to the upstream
Market fails at the transport level, `handle` returns status 503 Service
Unavailable with an empty body instead of propagating the transport error as
a handler error. -/
theorem handle_upstream_failure_503 (req : Request) (cache : Cache) (client : Client)
    (market : MarketApi) (parse : String → Except InvalidUri Uri) (u : Uri) (e : HyperError)
    (hnot : ¬ (rustStartsWith req.uri.path ROUTE_UNITS_FOR_SLOT = true ∧
      req.method = Method.GET))
    (hparse : parse (market.market_url ++
      (req.uri.path_and_query.getD PathAndQuery.emptyPQ).toStr) = Except.ok u)
    (hclient : client { req with uri := u } = Except.error e) :
    handle req cache client market parse = Except.ok { status := 503, body := "" } := by
  rw [handle_eq_proxy req cache client market parse hnot]
  simp [proxyToMarket, hparse, hclient, service_unavaiable]

/-- Witness for C8: a POST to `/foo?x=1` with the upstream unreachable
answers 503 with an empty body. -/
theorem handle_upstream_failure_503_witness :
    handle reqPost cacheEmpty clientDown market0 parse0 =
      Except.ok { status := 503, body := "" } :=
  handle_upstream_failure_503 reqPost cacheEmpty clientDown market0 parse0
    { path_and_query := Option.some { path := "http://market.example/foo?x=1", query := Option.none } }
    { msg := "connection refused" }
    (by intro h; exact absurd h.1 (by decide)) (by rfl) (by rfl)

/-- C9: for every proxied request for which the rewritten target string fails
to parse as a URI, `handle` returns `Error::Http` to the serving layer for
that request only; no 404/503 HTTP response is produced in this case. -/
theorem handle_invalid_uri_error (req : Request) (cache : Cache) (client : Client)
    (market : MarketApi) (parse : String → Except InvalidUri Uri) (e : InvalidUri)
    (hnot : ¬ (rustStartsWith req.uri.path ROUTE_UNITS_FOR_SLOT = true ∧
      req.method = Method.GET))
    (hparse : parse (market.market_url ++
      (req.uri.path_and_query.getD PathAndQuery.emptyPQ).toStr) = Except.error e) :
    handle req cache client market parse = Except.error (Error.Http (HttpError.invalidUri e)) ∧
      ∀ resp : Response, handle req cache client market parse ≠ Except.ok resp := by
  have hmain : handle req cache client market parse =
      Except.error (Error.Http (HttpError.invalidUri e)) := by
    rw [handle_eq_proxy req cache client market parse hnot]
    simp [proxyToMarket, hparse, Error.ofInvalidUri]
  exact ⟨hmain, fun resp hk => by rw [hmain] at hk; exact Except.noConfusion hk⟩

/-- Witness for C9: a POST whose rewritten target fails URI parsing makes
`handle` fail with `Error::Http` and produce no HTTP response. -/
theorem handle_invalid_uri_error_witness :
    handle reqPost cacheEmpty client0 market0 parseFail =
      Except.error (Error.Http (HttpError.invalidUri { msg := "invalid uri" })) :=
  (handle_invalid_uri_error reqPost cacheEmpty client0 market0 parseFail
    { msg := "invalid uri" }
    (by intro h; exact absurd h.1 (by decide)) (by rfl)).1

/-- C1 counterexample: the Cache handle does not influence the response. Two
different caches — one holding a campaign, one empty — produce the identical
200 response for `GET /units-for-slot/abc`; the slot is resolved through the
Market fixture, not the Cache. -/
theorem handle_cache_counterexample :
    cacheOne ≠ cacheEmpty ∧
    handle reqAbc cacheOne client0 market0 parse0 =
      handle reqAbc cacheEmpty client0 market0 parse0 ∧
    handle reqAbc cacheOne client0 market0 parse0 =
      Except.ok { status := 200, body := "" } :=
  ⟨by decide, rfl, by rfl⟩

/-- C1 (amended): for every GET units-for-slot request the `handle` function
resolves the slot through the Market client (`fetch_slot` / `fetch_units`);
the Cache handle passed to `handle` is unused (`_cache` in the source), so
the response never depends on it: any two cache handles give the identical
result on every request. -/
theorem handle_independent_of_cache (req : Request) (c1 c2 : Cache) (client : Client)
    (market : MarketApi) (parse : String → Except InvalidUri Uri) :
    handle req c1 client market parse = handle req c2 client market parse := rfl

/-- C4: if the initial `Cache::initialize` load fails, `serve` returns that
error before `Server::bind` is reached: for every configuration for which
`spawn_fetch_campaigns` returns an error, `serve` propagates the error (as
`Error::Reqwest`) and no listener is ever bound. -/
theorem serve_propagates_initialize_error (m : MarketApi)
    (initResult : Except ReqwestError Cache) (e : ReqwestError)
    (h : (spawn_fetch_campaigns initResult).result = Except.error e) :
    serve (Except.ok m) initResult =
      { result := Except.error (Error.Reqwest e), listenerBound := false } := by
  unfold serve
  rw [h]

/-- Witness for C4: with a failing initial load, `serve` fails with the
propagated `reqwest` error and binds no listener. -/
theorem serve_propagates_initialize_error_witness :
    serve (Except.ok market0) (Except.error reqErr0) =
      { result := Except.error (Error.Reqwest reqErr0), listenerBound := false } :=
  serve_propagates_initialize_error market0 (Except.error reqErr0) reqErr0 (by rfl)

/-- Every call dispatched by the scheduler loop starts no earlier than the
instant the loop reached, and occupies a well-formed interval. -/
theorem runScheduler_start_ge (tms : Timeouts) (now : Nat) (evs : List (TimeFor × Nat)) :
    ∀ r ∈ runScheduler tms now evs, now ≤ r.start ∧ r.start ≤ r.stop := by
  induction evs generalizing now with
  | nil => intro r hr; simp [runScheduler] at hr
  | cons e rest ih =>
    intro r hr
    obtain ⟨ev, dur⟩ := e
    simp only [runScheduler, List.mem_cons] at hr
    rcases hr with rfl | hr
    · exact ⟨Nat.le_refl _, Nat.le_add_right _ _⟩
    · have h := ih (now + min dur (timeoutFor tms ev)) r hr
      exact ⟨Nat.le_trans (Nat.le_add_right _ _) h.1, h.2⟩

/-- C2: events of the merged interval streams are processed one at a time,
strictly sequentially: in every execution trace of the scheduler loop, every
dispatched refresh call ends no later than the next one begins, so no call to
`fetch_new_campaigns` ever overlaps in time with a call to
`fetch_campaign_updates`, and no two calls of either overlap with each
other. -/
theorem scheduler_calls_never_overlap (tms : Timeouts) (now : Nat)
    (evs : List (TimeFor × Nat)) :
    List.Pairwise (fun a b => a.stop ≤ b.start) (runScheduler tms now evs) ∧
    ∀ r ∈ runScheduler tms now evs, r.start ≤ r.stop := by
  refine ⟨?_, fun r hr => (runScheduler_start_ge tms now evs r hr).2⟩
  induction evs generalizing now with
  | nil => simp [runScheduler]
  | cons e rest ih =>
    obtain ⟨ev, dur⟩ := e
    simp only [runScheduler]
    refine List.Pairwise.cons ?_ (ih _)
    intro b hb
    exact (runScheduler_start_ge tms (now + min dur (timeoutFor tms ev)) rest b hb).1

/-- The first dispatched call of the fixture trace: the New fetch occupying
time 0 to 3. -/
def rec0 : CallRecord :=
  { isNewCampaigns := true
    start := 0
    stop := 3
    log := { level := LogLevel.info, msg := "New Campaigns fetched from Validators!" } }

/-- The second dispatched call of the fixture trace: the Update needing 10
units against a budget of 7, abandoned at its timeout. -/
def recU : CallRecord :=
  { isNewCampaigns := false
    start := 3
    stop := 10
    log := { level := LogLevel.error, msg := "Updating Campaigns statuses timed out" } }

/-- Witness for C2: in the fixture trace the first call (starting at 0,
ending at 3) is a member, with a well-formed interval; the membership
hypothesis of the theorem is discharged by evaluation. -/
theorem scheduler_calls_never_overlap_witness :
    rec0 ∈ runScheduler tms0 0 evs0 ∧ rec0.start ≤ rec0.stop :=
  ⟨by decide, (scheduler_calls_never_overlap tms0 0 evs0).2 rec0 (by decide)⟩

/-- A timed-out refresh attempt is converted into an error-level log record
by the matching arm of the loop body. -/
theorem logForEvent_timeout (tms : Timeouts) (ev : TimeFor) (dur : Nat)
    (h : timeoutFor tms ev < dur) :
    (logForEvent tms ev dur).level = LogLevel.error := by
  cases ev with
  | New t => simp only [logForEvent, timeoutRun, timeoutFor] at h ⊢; rw [if_pos h]
  | Update t => simp only [logForEvent, timeoutRun, timeoutFor] at h ⊢; rw [if_pos h]

/-- C3: for every iteration of the scheduler loop, a refresh attempt that
exceeds its configured timeout (`cache_fetch_campaigns_from_market` for the
new-campaigns event, `cache_update_campaign_statuses` for the update event)
is consumed inside the loop as an error-level log record, and the loop goes
on to process every remaining event: the trace has exactly one dispatched
call per delivered event, and no error ever escapes the background task (the
trace function is total with no error outcome). -/
theorem scheduler_consumes_timeout_errors (tms : Timeouts) (now : Nat)
    (evs : List (TimeFor × Nat)) :
    (runScheduler tms now evs).length = evs.length ∧
    ∀ p ∈ evs.zip (runScheduler tms now evs),
      timeoutFor tms p.1.1 < p.1.2 → p.2.log.level = LogLevel.error := by
  constructor
  · induction evs generalizing now with
    | nil => rfl
    | cons e rest ih =>
      obtain ⟨ev, dur⟩ := e
      simp only [runScheduler, List.length_cons, ih]
  · induction evs generalizing now with
    | nil => intro p hp; simp at hp
    | cons e rest ih =>
      intro p hp
      obtain ⟨ev, dur⟩ := e
      simp only [runScheduler, List.zip_cons_cons, List.mem_cons] at hp
      rcases hp with rfl | hp
      · exact fun h => logForEvent_timeout tms ev dur h
      · exact ih (now + min dur (timeoutFor tms ev)) p hp

/-- Witness for C3: in the fixture trace the Update event needing 10 units
against a budget of 7 is paired with its dispatched call, whose log record is
error-level; the trace still has one call per event. -/
theorem scheduler_consumes_timeout_errors_witness :
    (runScheduler tms0 0 evs0).length = evs0.length ∧
    ((TimeFor.Update 0, 10), recU) ∈ evs0.zip (runScheduler tms0 0 evs0) ∧
    recU.log.level = LogLevel.error :=
  ⟨(scheduler_consumes_timeout_errors tms0 0 evs0).1, by decide,
    (scheduler_consumes_timeout_errors tms0 0 evs0).2
      ((TimeFor.Update 0, 10), recU) (by decide) (by decide)⟩

/-- Fixture GET request for `/units-for-slot` (no trailing slash). -/
def reqNoSlash : Request :=
  { method := Method.GET
    uri := { path_and_query := Option.some { path := "/units-for-slot", query := Option.none } }
    body := "" }

/-- Fixture GET request whose path repeats the route: the remainder after the
route is itself "/units-for-slot/abc". -/
def reqDouble : Request :=
  { method := Method.GET
    uri := { path_and_query :=
        Option.some { path := "/units-for-slot//units-for-slot/abc", query := Option.none } }
    body := "" }

/-- Fixture Market that knows the slot under the identifier
"/units-for-slot/abc" (the entire remainder of `reqDouble`'s path) and no
other identifier. -/
def marketCX : MarketApi :=
  { market_url := "http://market.example"
    fetch_slot := fun idf =>
      if idf = "/units-for-slot/abc" then Except.ok (Option.some slot0) else Except.ok Option.none
    fetch_units := fun _ => Except.ok [unit0] }

/-- C10 counterexample: for the path "/units-for-slot//units-for-slot/abc"
the remainder after the route is "/units-for-slot/abc", but
`trim_start_matches` strips the route repeatedly, so the identifier the code
uses is "abc"; with a Market that resolves "/units-for-slot/abc" (and not
"abc"), `handle` answers 404 where the claim ("the identifier is the entire
remainder of the path") would give 200. -/
theorem route_identifier_counterexample :
    rustStartsWith reqDouble.uri.path ROUTE_UNITS_FOR_SLOT = true ∧
    reqDouble.uri.path = ROUTE_UNITS_FOR_SLOT ++ "/units-for-slot/abc" ∧
    trimStartMatches reqDouble.uri.path ROUTE_UNITS_FOR_SLOT = "abc" ∧
    marketCX.fetch_slot "/units-for-slot/abc" = Except.ok (Option.some slot0) ∧
    handle reqDouble cacheEmpty client0 marketCX parse0 =
      Except.ok { status := 404, body := "" } :=
  ⟨by rfl, by rfl, by rfl, by rfl, by rfl⟩

theorem isPrefixOf_append_self (l r : List Char) : l.isPrefixOf (l ++ r) = true := by
  rw [List.isPrefixOf_iff_prefix]
  exact List.prefix_append l r

theorem trimStartAux_no_match (fuel : Nat) (s pat : List Char)
    (h : pat.isPrefixOf s = false) : trimStartAux fuel s pat = s := by
  cases fuel with
  | zero => rfl
  | succ n =>
    simp only [trimStartAux]
    rw [if_neg]
    intro hc
    rw [hc.2] at h
    exact Bool.noConfusion h

theorem trimStartAux_strip_once (fuel : Nat) (pat rest : List Char)
    (hne : pat ≠ []) (h : pat.isPrefixOf rest = false) :
    trimStartAux (fuel + 1) (pat ++ rest) pat = rest := by
  have hpre : pat.isPrefixOf (pat ++ rest) = true := isPrefixOf_append_self pat rest
  simp only [trimStartAux]
  rw [if_pos ⟨hne, hpre⟩, List.drop_left]
  exact trimStartAux_no_match fuel rest pat h

/-- When the remainder does not itself begin with the route, stripping the
route from `route ++ remainder` yields exactly the remainder. -/
theorem trim_route_remainder (rest : String)
    (h : rustStartsWith rest ROUTE_UNITS_FOR_SLOT = false) :
    trimStartMatches (ROUTE_UNITS_FOR_SLOT ++ rest) ROUTE_UNITS_FOR_SLOT = rest := by
  obtain ⟨l⟩ := rest
  have h' : ROUTE_UNITS_FOR_SLOT.data.isPrefixOf l = false := h
  have hd : (ROUTE_UNITS_FOR_SLOT ++ String.mk l).data = ROUTE_UNITS_FOR_SLOT.data ++ l :=
    String.data_append _ _
  have hroutelen : ROUTE_UNITS_FOR_SLOT.data.length = 16 := by rfl
  have hlen : (ROUTE_UNITS_FOR_SLOT.data ++ l).length = (15 + l.length) + 1 := by
    rw [List.length_append, hroutelen]
    omega
  unfold trimStartMatches
  rw [hd, hlen, trimStartAux_strip_once (15 + l.length) ROUTE_UNITS_FOR_SLOT.data l
    (by decide) h']

/-- C10 (amended): route matching requires the exact "/units-for-slot/"
prefix including the trailing slash — a GET to "/units-for-slot" is proxied
to the Market rather than handled as a slot lookup; for a path starting with
the prefix, the slot identifier is the remainder of the path after removing
every leading repetition of the prefix (slashes inside the remainder are
kept): whenever the remainder does not itself begin with the prefix, the
identifier is the entire remainder, and in particular "/units-for-slot/a/b"
yields identifier "a/b". -/
theorem route_prefix_matching_amended :
    (∀ (req : Request) (cache : Cache) (client : Client) (market : MarketApi)
      (parse : String → Except InvalidUri Uri), req.uri.path = "/units-for-slot" →
        handle req cache client market parse = proxyToMarket req client market parse) ∧
    (∀ rest : String, rustStartsWith rest ROUTE_UNITS_FOR_SLOT = false →
      trimStartMatches (ROUTE_UNITS_FOR_SLOT ++ rest) ROUTE_UNITS_FOR_SLOT = rest) ∧
    trimStartMatches "/units-for-slot/a/b" ROUTE_UNITS_FOR_SLOT = "a/b" := by
  refine ⟨?_, trim_route_remainder, by rfl⟩
  intro req cache client market parse hpath
  apply handle_eq_proxy
  intro hc
  have h1 := hc.1
  rw [hpath] at h1
  exact absurd h1 (by decide)

/-- Witness for C10 (amended): the concrete no-trailing-slash GET is proxied,
and stripping the route from "/units-for-slot/" ++ "a/b" gives "a/b". -/
theorem route_prefix_matching_amended_witness :
    handle reqNoSlash cacheEmpty client0 market0 parse0 =
      proxyToMarket reqNoSlash client0 market0 parse0 ∧
    trimStartMatches (ROUTE_UNITS_FOR_SLOT ++ "a/b") ROUTE_UNITS_FOR_SLOT = "a/b" :=
  ⟨route_prefix_matching_amended.1 reqNoSlash cacheEmpty client0 market0 parse0 (by rfl),
    route_prefix_matching_amended.2.1 "a/b" (by rfl)⟩
